import Mathlib

/-!
Shallow embedding of the peer-registry and alert RPC layer implemented in
src/src/rpcnet.cpp (Anoncoin), together with the spec-side notions needed to
check the frozen claims about it.  Collaborator state that rpcnet.cpp only
reads (the live peer set, the alert map, network configuration, DNS lookup,
signing keys) is passed to each modelled RPC explicitly, following the
spec's data model.
-/

/-- Modelled from the spec: a concrete network endpoint (address plus port),
the CService value produced by DNS resolution and stored per peer.
netbase.h is not under src/; the spec describes it as "remote address:port". -/
structure Service where
  host : String
  port : Nat
deriving DecidableEq

/-- Direction of a connection, rendered as "inbound" or "outbound". -/
inductive ConnDir
  | inbound
  | outbound
deriving DecidableEq

/-- Modelled from the spec: the Peer record of spec section 3 (net.h's CNode
is not under src/): remote address, direction, pending-ping flag, negotiated
version, timing and byte counters.  Only the fields rpcnet.cpp touches. -/
structure CNode where
  addr : Service
  fInbound : Bool
  fPingQueued : Bool
  nVersion : Int
  nLastSend : Int
  nLastRecv : Int
  nSendBytes : Nat
  nRecvBytes : Nat
deriving DecidableEq

/-- The closed error kinds thrown by the added-node RPCs
(RPC_CLIENT_NODE_ALREADY_ADDED and RPC_CLIENT_NODE_NOT_ADDED). -/
inductive RpcErr
  | alreadyAdded
  | notAdded
deriving DecidableEq

/-- The command argument of the addnode RPC. -/
inductive AddNodeCmd
  | add
  | remove
  | onetry
deriving DecidableEq

/-- The ping RPC (rpcnet.cpp lines 40-60): sets fPingQueued on every node of
vNodes and returns Value::null; the second component is the thrown error,
none meaning the call returned null without error. -/
def ping (vNodes : List CNode) : List CNode × Option RpcErr :=
  (vNodes.map (fun n => { n with fPingQueued := true }), none)

/-- The addnode RPC (rpcnet.cpp lines 148-196) acting on vAddedNodes:
onetry only asks the transport layer for a connection attempt and leaves the
list alone; add fails when the target is already present, otherwise appends;
remove fails when the target is absent, otherwise erases the first
occurrence.  The result is (vAddedNodes after the call, thrown error). -/
def addnode (cmd : AddNodeCmd) (strNode : String) (vAddedNodes : List String) :
    List String × Option RpcErr :=
  match cmd with
  | AddNodeCmd.onetry => (vAddedNodes, none)
  | AddNodeCmd.add =>
      if strNode ∈ vAddedNodes then (vAddedNodes, some RpcErr.alreadyAdded)
      else (vAddedNodes ++ [strNode], none)
  | AddNodeCmd.remove =>
      if strNode ∈ vAddedNodes then (vAddedNodes.erase strNode, none)
      else (vAddedNodes, some RpcErr.notAdded)

/-- One element of the addresses array of getaddednodeinfo: a candidate
address and its connection state (none is rendered as "false", otherwise
the matching peer's direction). -/
structure AddrEntry where
  address : Service
  connected : Option ConnDir
deriving DecidableEq

/-- One element of the getaddednodeinfo result array: with dns=false only
the bare target string is emitted; with dns=true the target also carries the
aggregate connected flag and the per-candidate address list. -/
inductive GANEntry
  | bare (addednode : String)
  | full (addednode : String) (connected : Bool) (addresses : List AddrEntry)
deriving DecidableEq

/-- Target selection of getaddednodeinfo (rpcnet.cpp lines 233-252): all of
vAddedNodes, or just the requested one, failing with notAdded when the
requested target is not in the list. -/
def selectAddedNodes (vAddedNodes : List String) (nodeArg : Option String) :
    Except RpcErr (List String) :=
  match nodeArg with
  | none => Except.ok vAddedNodes
  | some strNode =>
      if strNode ∈ vAddedNodes then Except.ok [strNode]
      else Except.error RpcErr.notAdded

/-- The getaddednodeinfo RPC (rpcnet.cpp lines 198-313).  lookup is the DNS
collaborator (none = resolution failure) and vNodes the live peer set.  With
dns=true the source pushes resolved targets into laddedAddreses while, in
the resolution-failure branch, it builds the present-but-unconnected object
obj but never appends it to ret; the filterMap reproduces that behaviour.
Per candidate address, the first peer whose addr equals it determines the
direction, and the aggregate connected flag is set when any candidate
matched some peer. -/
def getaddednodeinfo (vAddedNodes : List String) (nodeArg : Option String)
    (fDns : Bool) (lookup : String → Option (List Service))
    (vNodes : List CNode) : Except RpcErr (List GANEntry) :=
  match selectAddedNodes vAddedNodes nodeArg with
  | Except.error e => Except.error e
  | Except.ok laddedNodes =>
    if fDns = false then
      Except.ok (laddedNodes.map GANEntry.bare)
    else
      let laddedAddreses :=
        laddedNodes.filterMap (fun t => (lookup t).map (fun v => (t, v)))
      Except.ok (laddedAddreses.map (fun tv =>
        GANEntry.full tv.1
          (tv.2.any (fun a => vNodes.any (fun p => decide (p.addr = a))))
          (tv.2.map (fun a =>
            { address := a,
              connected := (vNodes.find? (fun p => decide (p.addr = a))).map
                (fun p => if p.fInbound then ConnDir.inbound else ConnDir.outbound) }))))

/-- SingleAlertSubVersionsString (rpcnet.cpp lines 360-369): folds the
subversion set (given in iteration order) into one string, prepending the
separator whenever the accumulated string is non-empty. -/
def SingleAlertSubVersionsString (setVersions : List String) : String :=
  setVersions.foldl
    (fun strSetSubVer str =>
      (if strSetSubVer.length ≠ 0 then strSetSubVer ++ " or " else strSetSubVer) ++ str)
    ""

/-- The claim's rendering: the elements joined by the separator, with n-1
separators for n elements ("A or B or C"). -/
def specJoin (sep : String) : List String → String
  | [] => ""
  | [s] => s
  | s :: s2 :: rest => s ++ sep ++ specJoin sep (s2 :: rest)

/-- Helper for the join proofs: the tail of the join, one separator before
every element. -/
def specTail : List String → String
  | [] => ""
  | s :: rest => " or " ++ s ++ specTail rest

/-- Modelled from the spec: the Alert record of spec section 3 (alert.h is
not under src/); exactly the fields rpcnet.cpp reads. -/
structure CAlert where
  nID : Int
  nPriority : Int
  nMinVer : Int
  nMaxVer : Int
  setSubVer : List String
  nRelayUntil : Int
  nExpiration : Int
  strStatusBar : String
  nCancel : Int
deriving DecidableEq

/-- One record of the "alerts" array of getnetworkinfo. -/
structure AlertRec where
  alertID : Int
  priority : Int
  minVer : Int
  maxVer : Int
  subVer : String
  relayUntil : Int
  expiration : Int
  statusBar : String
deriving DecidableEq

/-- The record getnetworkinfo builds for one alert (rpcnet.cpp 443-452). -/
def renderAlert (alert : CAlert) : AlertRec :=
  { alertID := alert.nID,
    priority := alert.nPriority,
    minVer := alert.nMinVer,
    maxVer := alert.nMaxVer,
    subVer := SingleAlertSubVersionsString alert.setSubVer,
    relayUntil := alert.nRelayUntil,
    expiration := alert.nExpiration,
    statusBar := alert.strStatusBar }

/-- The alerts array of getnetworkinfo (rpcnet.cpp lines 436-455): one
record per entry of mapAlerts (given in map iteration order), with no
filtering whatsoever. -/
def getnetworkinfoAlerts (mapAlerts : List CAlert) : List AlertRec :=
  mapAlerts.map renderAlert

/-- A stored alert already past its expiration; per spec section 4.2 the
store evicts expired alerts only lazily beyond a retention grace period, so
such an alert may sit in mapAlerts. -/
def staleAlert : CAlert :=
  { nID := 1001, nPriority := 5, nMinVer := 0, nMaxVer := 999999,
    setSubVer := [], nRelayUntil := 4, nExpiration := 5,
    strStatusBar := "stale", nCancel := 0 }

/-- Modelled from the spec: the result of GetProxy for one network, whether
a valid proxy is configured and its endpoint rendering (netbase.h is not
under src/). -/
structure ProxyType where
  isValid : Bool
  toStringIPPort : String

/-- Modelled from the spec: the per-transport configuration collaborators
GetNetworkName, IsLimited, IsReachable and GetProxy, indexed by the value of
the Network enumerator. -/
structure NetworkConfig where
  name : Nat → String
  limited : Nat → Bool
  reachable : Nat → Bool
  proxy : Nat → ProxyType

/-- Modelled from the spec: the non-routable pseudo-transport is the first
enumerator of the Network enum (netbase.h is not under src/). -/
def NET_UNROUTABLE : Nat := 0

/-- One element of the networkconnections array. -/
structure NetworkInfoEntry where
  name : String
  limited : Bool
  reachable : Bool
  proxy : String
deriving DecidableEq

/-- The record GetNetworksInfo builds for one network (rpcnet.cpp 348-355):
name, limited flag, reachable flag, and the proxy endpoint, the latter
empty when no valid proxy is configured. -/
def mkNetworkEntry (cfg : NetworkConfig) (n : Nat) : NetworkInfoEntry :=
  { name := cfg.name n,
    limited := cfg.limited n,
    reachable := cfg.reachable n,
    proxy := if (cfg.proxy n).isValid then (cfg.proxy n).toStringIPPort else "" }

/-- GetNetworksInfo (rpcnet.cpp lines 340-358): loop n = 0 .. NET_MAX - 1,
skipping NET_UNROUTABLE, appending one entry per remaining network. -/
def GetNetworksInfo (netMax : Nat) (cfg : NetworkConfig) : List NetworkInfoEntry :=
  (List.range netMax).foldl
    (fun networks n =>
      if n = NET_UNROUTABLE then networks else networks ++ [mkNetworkEntry cfg n])
    []

/-- A concrete per-transport configuration used to evaluate the theorems. -/
def demoNetConfig : NetworkConfig :=
  { name := fun _ => "ipv4",
    limited := fun _ => false,
    reachable := fun _ => true,
    proxy := fun n =>
      if n = 3 then { isValid := true, toStringIPPort := "127.0.0.1:9050" }
      else { isValid := false, toStringIPPort := "" } }

/-- Modelled from the spec: outcomes of the key and signing collaborators of
sendalert (key.cpp is not under src/).  validKey says whether the hex bytes
are valid signing key material; setPrivKeyOk is CKey::SetPrivKey's success
on non-32-byte input; signOk is CKey::Sign's success for the key built from
the bytes; processOk is alert.ProcessAlert()'s outcome.  The spec's
fail-closed contract (section 4.3) relates validKey to the other two key
outcomes and is taken as a hypothesis of the theorem. -/
structure SignOracle where
  validKey : List Nat → Bool
  setPrivKeyOk : List Nat → Bool
  signOk : List Nat → Bool
  processOk : Bool

/-- Observable outcome of one sendalert call: the thrown error if any,
whether ProcessAlert accepted the alert, and the peers that were handed a
relay instruction. -/
structure SendalertResult where
  err : Option String
  processed : Bool
  relayedTo : List CNode
deriving DecidableEq

/-- Control flow of sendalert (rpcnet.cpp lines 544-577): a 32-byte secret
is installed without any check, any other length must satisfy SetPrivKey or
the call throws; then Sign must succeed, then ProcessAlert; only after all
three succeed does the relay loop over vNodes run. -/
def sendalert (o : SignOracle) (vchPrivKey : List Nat) (vNodes : List CNode) :
    SendalertResult :=
  if vchPrivKey.length ≠ 32 ∧ o.setPrivKeyOk vchPrivKey = false then
    { err := some "Unable to verify alert Private key, check private key?",
      processed := false, relayedTo := [] }
  else if o.signOk vchPrivKey = false then
    { err := some "Unable to sign alert, check private key?",
      processed := false, relayedTo := [] }
  else if o.processOk = false then
    { err := some "Failed to process alert.",
      processed := false, relayedTo := [] }
  else
    { err := none, processed := true, relayedTo := vNodes }

/-- An oracle satisfying the spec's fail-closed contract, for evaluation. -/
def demoOracle : SignOracle :=
  { validKey := fun b => decide (b.length = 32),
    setPrivKeyOk := fun _ => false,
    signOk := fun b => decide (b.length = 32),
    processOk := true }

/-- A concrete live peer used to evaluate the theorems. -/
def demoNode : CNode :=
  { addr := { host := "10.0.0.1", port := 9377 },
    fInbound := true, fPingQueued := false, nVersion := 70008,
    nLastSend := 100, nLastRecv := 200, nSendBytes := 300, nRecvBytes := 400 }

/-- A concrete candidate address used to evaluate the theorems. -/
def demoSvc1 : Service := { host := "10.0.0.1", port := 9377 }

/-- A second concrete candidate address used to evaluate the theorems. -/
def demoSvc2 : Service := { host := "10.0.0.2", port := 9377 }

/-- The addresses-array entry produced for demoSvc1 when demoNode (an
inbound peer at that address) is live. -/
def demoAe1 : AddrEntry := { address := demoSvc1, connected := some ConnDir.inbound }

/-- The addresses-array entry produced for demoSvc2, which no live peer
matches. -/
def demoAe2 : AddrEntry := { address := demoSvc2, connected := none }

/-- std::string::find(c, pos): the index of the first occurrence of c at or
after position pos. -/
def findIdxFrom : List Char → Char → Nat → Option Nat
  | [], _, _ => none
  | a :: t, c, 0 =>
      if a = c then some 0 else (findIdxFrom t c 0).map (fun k => k + 1)
  | _ :: t, c, p + 1 => (findIdxFrom t c p).map (fun k => k + 1)

/-- The subversion-splitting while-loop of sendalert (rpcnet.cpp 498-502),
entered with iPos = 1.  At each entry with position p it finds the next '/'
at or after p, emits substr(p - 1, (j + 1) - (p - 1)) (both enclosing
slashes included) and continues from j + 1.  The scan position strictly
increases while staying no larger than the length, so s.length + 1 - p
iterations always suffice; the fuel argument makes that bound explicit and
the membership lemma below holds for every sufficient fuel. -/
def subVerLoopF : Nat → List Char → Nat → List (List Char)
  | 0, _, _ => []
  | fuel + 1, s, p =>
      match findIdxFrom s '/' p with
      | none => []
      | some j =>
          ((s.drop (p - 1)).take (j + 1 - (p - 1))) :: subVerLoopF fuel s (j + 1)

/-- The while-loop run with its sufficient fuel. -/
def subVerLoop (s : List Char) (p : Nat) : List (List Char) :=
  subVerLoopF (s.length + 1 - p) s p

/-- The subversion handling of sendalert (rpcnet.cpp lines 494-506): an
empty argument leaves the set empty; otherwise the first and last character
must both be '/' or the call throws; on success the loop splits the string.
The result list is the insertion order of alert.setSubVer. -/
def parseSubVers (s : List Char) : Except String (List (List Char)) :=
  if s.length = 0 then Except.ok []
  else if s.get? 0 = some '/' ∧ s.get? (s.length - 1) = some '/' then
    Except.ok (subVerLoop s 1)
  else Except.error "Invalid client subversion(s) string, see BIP14 for specifications"

/-- The claim's characterization: x spans a pair of consecutive '/'
delimiters of s, including both enclosing slashes. -/
def isConsecSlashSeg (s : List Char) (x : List Char) : Prop :=
  ∃ a b, a < b ∧ s.get? a = some '/' ∧ s.get? b = some '/' ∧
    (∀ i, a < i → i < b → s.get? i ≠ some '/') ∧
    x = (s.drop a).take (b + 1 - a)

/-! ## Helper lemmas -/

theorem foldl_skip_append (g : Nat → NetworkInfoEntry) :
    ∀ (l : List Nat) (acc : List NetworkInfoEntry),
      l.foldl (fun networks n =>
        if n = NET_UNROUTABLE then networks else networks ++ [g n]) acc =
      acc ++ (l.filter (fun n => n != NET_UNROUTABLE)).map g := by
  intro l
  induction l with
  | nil => intro acc; simp
  | cons n t ih =>
      intro acc
      by_cases hn : n = NET_UNROUTABLE
      · simp [List.foldl_cons, hn, List.filter_cons, ih]
      · simp [List.foldl_cons, hn, List.filter_cons, ih]

theorem length_filter_range_unroutable (m : Nat) :
    ((List.range (m + 1)).filter (fun n => n != NET_UNROUTABLE)).length = m := by
  have hall : (List.map Nat.succ (List.range m)).filter (fun n => n != NET_UNROUTABLE) =
      List.map Nat.succ (List.range m) := by
    rw [List.filter_eq_self]
    intro a ha
    rw [List.mem_map] at ha
    obtain ⟨k, _, rfl⟩ := ha
    simp [NET_UNROUTABLE]
  have h0 : ((0 : Nat) != NET_UNROUTABLE) = false := by simp [NET_UNROUTABLE]
  rw [List.range_succ_eq_map, List.filter_cons, h0]
  simp [hall]

theorem specJoin_cons (s : String) (rest : List String) :
    specJoin " or " (s :: rest) = s ++ specTail rest := by
  induction rest generalizing s with
  | nil => simp [specJoin, specTail]
  | cons s2 t ih => simp [specJoin, specTail, ih, String.append_assoc]

theorem foldl_subver_acc :
    ∀ (l : List String) (acc : String), acc.length ≠ 0 →
      l.foldl (fun strSetSubVer str =>
        (if strSetSubVer.length ≠ 0 then strSetSubVer ++ " or " else strSetSubVer) ++ str)
        acc = acc ++ specTail l := by
  intro l
  induction l with
  | nil => intro acc h; simp [specTail]
  | cons s t ih =>
      intro acc h
      rw [List.foldl_cons, if_pos h]
      have h2 : ((acc ++ " or ") ++ s).length ≠ 0 := by
        rw [String.length_append, String.length_append]
        omega
      rw [ih _ h2]
      simp [specTail, String.append_assoc]

/-! ## Claim theorems -/

/-- C3: addnode "add" fails with the node-already-added error and leaves
vAddedNodes unchanged when the target is present, otherwise appends it
exactly once; "remove" fails with the node-not-added error and leaves the
list unchanged when the target is absent, otherwise removes it; the
scenario add, add, remove, remove on "10.0.0.5" yields success,
AlreadyAdded, success, NotFound in that order. -/
theorem addnode_add_remove_semantics (x : String) (st : List String) :
    (x ∈ st → addnode AddNodeCmd.add x st = (st, some RpcErr.alreadyAdded)) ∧
    (x ∉ st → addnode AddNodeCmd.add x st = (st ++ [x], none) ∧
      (st ++ [x]).count x = 1) ∧
    (x ∉ st → addnode AddNodeCmd.remove x st = (st, some RpcErr.notAdded)) ∧
    (x ∈ st → addnode AddNodeCmd.remove x st = (st.erase x, none) ∧
      (st.erase x).length + 1 = st.length) ∧
    (addnode AddNodeCmd.add "10.0.0.5" [] = (["10.0.0.5"], none) ∧
     addnode AddNodeCmd.add "10.0.0.5" ["10.0.0.5"] =
       (["10.0.0.5"], some RpcErr.alreadyAdded) ∧
     addnode AddNodeCmd.remove "10.0.0.5" ["10.0.0.5"] = ([], none) ∧
     addnode AddNodeCmd.remove "10.0.0.5" [] = ([], some RpcErr.notAdded)) := by
  refine ⟨fun h => by simp [addnode, h],
          fun h => ⟨by simp [addnode, h], ?_⟩,
          fun h => by simp [addnode, h],
          fun h => ⟨by simp [addnode, h], ?_⟩,
          by decide⟩
  · rw [List.count_append]
    simp [List.count_eq_zero.mpr ‹x ∉ st›]
  · have h1 := List.length_erase_of_mem ‹x ∈ st›
    have h2 := List.length_pos_of_mem ‹x ∈ st›
    omega

/-- C3 witness: the semantics evaluated at the scenario inputs. -/
theorem addnode_add_remove_semantics_witness :
    addnode AddNodeCmd.add "10.0.0.5" ["10.0.0.5"] =
      (["10.0.0.5"], some RpcErr.alreadyAdded) ∧
    addnode AddNodeCmd.add "10.0.0.5" [] = ([] ++ ["10.0.0.5"], none) ∧
    addnode AddNodeCmd.remove "10.0.0.5" [] = ([], some RpcErr.notAdded) ∧
    addnode AddNodeCmd.remove "10.0.0.5" ["10.0.0.5"] =
      (["10.0.0.5"].erase "10.0.0.5", none) :=
  ⟨(addnode_add_remove_semantics "10.0.0.5" ["10.0.0.5"]).1 (by decide),
   ((addnode_add_remove_semantics "10.0.0.5" []).2.1 (by decide)).1,
   (addnode_add_remove_semantics "10.0.0.5" []).2.2.1 (by decide),
   ((addnode_add_remove_semantics "10.0.0.5" ["10.0.0.5"]).2.2.2.1 (by decide)).1⟩

/-- C6: addnode "onetry" leaves the persistent added-node list exactly as it
was, reports no error, and a target that was not in the list before is not
listed by getaddednodeinfo afterwards. -/
theorem addnode_onetry_frame (x : String) (st : List String)
    (lookup : String → Option (List Service)) (vNodes : List CNode) :
    addnode AddNodeCmd.onetry x st = (st, none) ∧
    (x ∉ st →
      getaddednodeinfo (addnode AddNodeCmd.onetry x st).1 none false lookup vNodes =
        Except.ok (st.map GANEntry.bare) ∧
      GANEntry.bare x ∉ st.map GANEntry.bare) := by
  refine ⟨rfl, fun hx => ⟨rfl, ?_⟩⟩
  simpa using hx

/-- C6 witness: the frame property evaluated at a concrete list. -/
theorem addnode_onetry_frame_witness :
    addnode AddNodeCmd.onetry "9.9.9.9" ["1.1.1.1"] = (["1.1.1.1"], none) ∧
    getaddednodeinfo ["1.1.1.1"] none false (fun _ => none) [] =
      Except.ok (["1.1.1.1"].map GANEntry.bare) ∧
    GANEntry.bare "9.9.9.9" ∉ ["1.1.1.1"].map GANEntry.bare :=
  ⟨(addnode_onetry_frame "9.9.9.9" ["1.1.1.1"] (fun _ => none) []).1,
   ((addnode_onetry_frame "9.9.9.9" ["1.1.1.1"] (fun _ => none) []).2 (by decide)).1,
   ((addnode_onetry_frame "9.9.9.9" ["1.1.1.1"] (fun _ => none) []).2 (by decide)).2⟩

/-- C7: the ping RPC sets the pending-ping flag on every peer of the live
set, changes no other per-peer field, adds or removes no peer, and returns
null (no error). -/
theorem ping_sets_flag_only (vNodes : List CNode) :
    (ping vNodes).2 = none ∧
    (ping vNodes).1.length = vNodes.length ∧
    ∀ i n0, vNodes.get? i = some n0 →
      ∃ n1, (ping vNodes).1.get? i = some n1 ∧
        n1.fPingQueued = true ∧ n1.addr = n0.addr ∧ n1.fInbound = n0.fInbound ∧
        n1.nVersion = n0.nVersion ∧ n1.nLastSend = n0.nLastSend ∧
        n1.nLastRecv = n0.nLastRecv ∧ n1.nSendBytes = n0.nSendBytes ∧
        n1.nRecvBytes = n0.nRecvBytes := by
  refine ⟨rfl, by simp [ping], fun i n0 h => ?_⟩
  refine ⟨{ n0 with fPingQueued := true }, ?_, rfl, rfl, rfl, rfl, rfl, rfl, rfl, rfl⟩
  have hm : (ping vNodes).1.get? i =
      (vNodes.get? i).map (fun n => { n with fPingQueued := true }) := by
    simp [ping, List.get?_eq_getElem?, List.getElem?_map]
  rw [hm, h]
  rfl

/-- C7 witness: the ping frame property at a one-peer live set. -/
theorem ping_sets_flag_only_witness :
    ∃ n1, (ping [demoNode]).1.get? 0 = some n1 ∧
      n1.fPingQueued = true ∧ n1.addr = demoNode.addr ∧
      n1.fInbound = demoNode.fInbound ∧ n1.nVersion = demoNode.nVersion ∧
      n1.nLastSend = demoNode.nLastSend ∧ n1.nLastRecv = demoNode.nLastRecv ∧
      n1.nSendBytes = demoNode.nSendBytes ∧ n1.nRecvBytes = demoNode.nRecvBytes :=
  (ping_sets_flag_only [demoNode]).2.2 0 demoNode (by rfl)

/-- C1 (failing input): getaddednodeinfo with dns=true silently omits a
target whose DNS resolution fails: the source builds the
present-but-unconnected object but never appends it to ret.  With the
added-node list ["bad"] where "bad" fails to resolve the result is empty,
and with ["bad", "good"] only "good" is listed; the claim requires a
connected=false, empty-addresses record for "bad" in both cases. -/
theorem getaddednodeinfo_drops_unresolved :
    getaddednodeinfo ["bad"] none true (fun _ => none) [] = Except.ok [] ∧
    getaddednodeinfo ["bad", "good"] none true
        (fun t => if t = "good" then some [demoSvc1] else none) [] =
      Except.ok [GANEntry.full "good" false
        [{ address := demoSvc1, connected := none }]] :=
  ⟨rfl, rfl⟩

/-- C4: with the spec's fail-closed signing contract as hypotheses, a hex
private-key parameter that is not valid signing key material makes
sendalert throw before the alert is processed and before any relay
instruction is emitted; moreover any signing or processing failure emits no
relay instruction to any peer. -/
theorem sendalert_fails_closed (o : SignOracle) (vchPrivKey : List Nat)
    (vNodes : List CNode)
    (hsign : ∀ b, o.validKey b = false → o.signOk b = false)
    (hset : ∀ b, o.validKey b = false → o.setPrivKeyOk b = false) :
    (o.validKey vchPrivKey = false →
      (sendalert o vchPrivKey vNodes).err.isSome = true ∧
      (sendalert o vchPrivKey vNodes).processed = false ∧
      (sendalert o vchPrivKey vNodes).relayedTo = []) ∧
    (o.signOk vchPrivKey = false ∨ o.processOk = false →
      (sendalert o vchPrivKey vNodes).relayedTo = [] ∧
      (sendalert o vchPrivKey vNodes).err.isSome = true) := by
  constructor
  · intro hv
    have hs := hsign vchPrivKey hv
    have hp := hset vchPrivKey hv
    unfold sendalert
    split_ifs <;> simp_all
  · intro hor
    unfold sendalert
    split_ifs <;> simp_all

/-- C4 witness: a 3-byte (hence invalid) key under an oracle satisfying the
fail-closed contract. -/
theorem sendalert_fails_closed_witness :
    demoOracle.validKey [1, 2, 3] = false ∧
    (sendalert demoOracle [1, 2, 3] [demoNode]).err.isSome = true ∧
    (sendalert demoOracle [1, 2, 3] [demoNode]).processed = false ∧
    (sendalert demoOracle [1, 2, 3] [demoNode]).relayedTo = [] :=
  ⟨by decide,
   ((sendalert_fails_closed demoOracle [1, 2, 3] [demoNode]
      (fun b hb => hb) (fun b hb => rfl)).1 (by decide)).1,
   ((sendalert_fails_closed demoOracle [1, 2, 3] [demoNode]
      (fun b hb => hb) (fun b hb => rfl)).1 (by decide)).2.1,
   ((sendalert_fails_closed demoOracle [1, 2, 3] [demoNode]
      (fun b hb => hb) (fun b hb => rfl)).1 (by decide)).2.2⟩

/-- C2 (counterexample): with the alert map holding staleAlert (expiration
5) and current time 10, the alerts array of getnetworkinfo contains a
record whose expiration is not in the future — the rendering applies no
activity filter, refuting the claim at this concrete input. -/
theorem alerts_view_counterexample :
    ¬ (∀ r ∈ getnetworkinfoAlerts [staleAlert],
        (10 : Int) < r.expiration ∧ ¬ ∃ b ∈ [staleAlert], b.nCancel = r.alertID) := by
  intro h
  have h2 := h (renderAlert staleAlert) (by simp [getnetworkinfoAlerts])
  exact absurd h2.1 (by decide)

/-- C2 (amended): the alerts array of getnetworkinfo contains exactly one
record per alert currently in the alert map, in map order, rendered from
its fields, with no filtering by expiration or cancellation at call time. -/
theorem alerts_view_unfiltered (mapAlerts : List CAlert) :
    (getnetworkinfoAlerts mapAlerts).length = mapAlerts.length ∧
    (∀ r, r ∈ getnetworkinfoAlerts mapAlerts ↔ ∃ a ∈ mapAlerts, renderAlert a = r) ∧
    (∀ a ∈ mapAlerts, ∃ r ∈ getnetworkinfoAlerts mapAlerts,
      r.alertID = a.nID ∧ r.expiration = a.nExpiration ∧
      r.statusBar = a.strStatusBar) := by
  refine ⟨by simp [getnetworkinfoAlerts],
          fun r => List.mem_map,
          fun a ha => ⟨renderAlert a, List.mem_map_of_mem renderAlert ha, rfl, rfl, rfl⟩⟩

/-- C2 witness: the amended rendering property at the stale one-alert map. -/
theorem alerts_view_unfiltered_witness :
    ∃ r ∈ getnetworkinfoAlerts [staleAlert],
      r.alertID = staleAlert.nID ∧ r.expiration = staleAlert.nExpiration ∧
      r.statusBar = staleAlert.strStatusBar :=
  (alerts_view_unfiltered [staleAlert]).2.2 staleAlert (by simp)

/-- C8: GetNetworksInfo returns, in enumerator order, exactly one entry per
supported transport other than the non-routable pseudo-transport, each
carrying the transport's name, limited flag, reachable flag and proxy
endpoint string, the latter empty when no valid proxy is configured. -/
theorem networksinfo_describe (netMax : Nat) (cfg : NetworkConfig) :
    GetNetworksInfo netMax cfg =
      ((List.range netMax).filter (fun n => n != NET_UNROUTABLE)).map
        (mkNetworkEntry cfg) ∧
    (0 < netMax → (GetNetworksInfo netMax cfg).length = netMax - 1) ∧
    (∀ n, (cfg.proxy n).isValid = false → (mkNetworkEntry cfg n).proxy = "") ∧
    (∀ n, (cfg.proxy n).isValid = true →
      (mkNetworkEntry cfg n).proxy = (cfg.proxy n).toStringIPPort) := by
  have hmain : GetNetworksInfo netMax cfg =
      ((List.range netMax).filter (fun n => n != NET_UNROUTABLE)).map
        (mkNetworkEntry cfg) := by
    have h := foldl_skip_append (mkNetworkEntry cfg) (List.range netMax) []
    simpa [GetNetworksInfo] using h
  refine ⟨hmain, fun hpos => ?_,
          fun n hn => by simp [mkNetworkEntry, hn],
          fun n hn => by simp [mkNetworkEntry, hn]⟩
  obtain ⟨m, rfl⟩ : ∃ m, netMax = m + 1 := ⟨netMax - 1, by omega⟩
  rw [hmain, List.length_map, length_filter_range_unroutable]
  omega

/-- C8 witness: a five-transport catalog with a proxy on transport 3. -/
theorem networksinfo_describe_witness :
    (GetNetworksInfo 5 demoNetConfig).length = 4 ∧
    (mkNetworkEntry demoNetConfig 1).proxy = "" ∧
    (mkNetworkEntry demoNetConfig 3).proxy = "127.0.0.1:9050" :=
  ⟨(networksinfo_describe 5 demoNetConfig).2.1 (by decide),
   (networksinfo_describe 5 demoNetConfig).2.2.1 1 (by decide),
   (networksinfo_describe 5 demoNetConfig).2.2.2 3 (by decide)⟩

/-- C9 (counterexample): for the subversion set with iteration order
["", "A"] (in a std::set the empty string sorts first), the source renders
"A" with no separator, while the 2-element join with one separator is
" or A"; the claimed join law fails at this set. -/
theorem subver_join_counterexample :
    SingleAlertSubVersionsString ["", "A"] = "A" ∧
    specJoin " or " ["", "A"] = " or A" ∧
    SingleAlertSubVersionsString ["", "A"] ≠ specJoin " or " ["", "A"] :=
  ⟨rfl, rfl, by decide⟩

/-- C9 (amended): the empty set renders as the empty string and a singleton
as its element; for a set none of whose elements is the empty string the
rendering is the elements joined by " or " with n-1 separators in iteration
order (an empty-string element contributes no separator, as the separator
is only prepended when the accumulated rendering is non-empty). -/
theorem subver_join_amended :
    SingleAlertSubVersionsString [] = "" ∧
    (∀ s, SingleAlertSubVersionsString [s] = s) ∧
    (∀ l : List String, (∀ s ∈ l, s ≠ "") →
      SingleAlertSubVersionsString l = specJoin " or " l) := by
  refine ⟨rfl, fun s => by simp [SingleAlertSubVersionsString], fun l hl => ?_⟩
  cases l with
  | nil => rfl
  | cons s t =>
      have hs : s ≠ "" := hl s (by simp)
      have hlen : s.length ≠ 0 := by
        intro h0
        apply hs
        cases s with
        | mk data =>
            have : data.length = 0 := h0
            have hd : data = [] := List.length_eq_zero.mp this
            simp [hd]
      have hstep : SingleAlertSubVersionsString (s :: t) =
          t.foldl (fun strSetSubVer str =>
            (if strSetSubVer.length ≠ 0 then strSetSubVer ++ " or " else strSetSubVer)
              ++ str) s := by
        unfold SingleAlertSubVersionsString
        rw [List.foldl_cons]
        have : ((if ("" : String).length ≠ 0 then "" ++ " or " else "") ++ s) = s := by
          simp
        rw [this]
      rw [hstep, foldl_subver_acc t s hlen, specJoin_cons]

/-- C9 witness: the amended join law at a two-element set of non-empty
subversion strings. -/
theorem subver_join_amended_witness :
    SingleAlertSubVersionsString ["/X/", "/Y/"] = specJoin " or " ["/X/", "/Y/"] :=
  subver_join_amended.2.2 ["/X/", "/Y/"] (by decide)

theorem candidate_entry_spec (vNodes : List CNode) (a : Service) :
    (((vNodes.find? (fun p => decide (p.addr = a))).map
        (fun p => if p.fInbound then ConnDir.inbound else ConnDir.outbound)) ≠ none ↔
      ∃ p ∈ vNodes, p.addr = a) ∧
    (∀ d, ((vNodes.find? (fun p => decide (p.addr = a))).map
        (fun p => if p.fInbound then ConnDir.inbound else ConnDir.outbound)) = some d →
      ∃ p ∈ vNodes, p.addr = a ∧
        d = (if p.fInbound then ConnDir.inbound else ConnDir.outbound)) := by
  constructor
  · constructor
    · intro hne
      cases hfind : vNodes.find? (fun p => decide (p.addr = a)) with
      | none => rw [hfind] at hne; simp at hne
      | some p =>
          have hpa : p.addr = a := by simpa using List.find?_some hfind
          exact ⟨p, List.mem_of_find?_eq_some hfind, hpa⟩
    · rintro ⟨p, hp, hpa⟩ hmapnone
      rw [Option.map_eq_none'] at hmapnone
      rw [List.find?_eq_none] at hmapnone
      exact hmapnone p hp (decide_eq_true hpa)
  · intro d hd
    cases hfind : vNodes.find? (fun p => decide (p.addr = a)) with
    | none => rw [hfind] at hd; simp at hd
    | some p =>
        rw [hfind, Option.map_some'] at hd
        injection hd with hd
        have hpa : p.addr = a := by simpa using List.find?_some hfind
        exact ⟨p, List.mem_of_find?_eq_some hfind, hpa, hd.symm⟩

/-- C5: getaddednodeinfo with do_dns=false returns, per selected added
node, only the bare target string with no connectivity information; with
do_dns=true each resolved candidate address is reported connected exactly
when some live peer's address equals that candidate address, in which case
the entry carries that peer's direction. -/
theorem getaddednodeinfo_connectivity (vAddedNodes : List String)
    (nodeArg : Option String) (lookup : String → Option (List Service))
    (vNodes : List CNode) :
    (∀ L, getaddednodeinfo vAddedNodes nodeArg false lookup vNodes = Except.ok L →
      ∃ sel, selectAddedNodes vAddedNodes nodeArg = Except.ok sel ∧
        L = sel.map GANEntry.bare) ∧
    (∀ L, getaddednodeinfo vAddedNodes nodeArg true lookup vNodes = Except.ok L →
      ∀ t conn addrs, GANEntry.full t conn addrs ∈ L →
        ∀ ae ∈ addrs,
          (ae.connected ≠ none ↔ ∃ p ∈ vNodes, p.addr = ae.address) ∧
          (∀ d, ae.connected = some d →
            ∃ p ∈ vNodes, p.addr = ae.address ∧
              d = (if p.fInbound then ConnDir.inbound else ConnDir.outbound))) := by
  constructor
  · intro L hL
    cases hsel : selectAddedNodes vAddedNodes nodeArg with
    | error e =>
        unfold getaddednodeinfo at hL
        rw [hsel] at hL
        simp at hL
    | ok sel =>
        unfold getaddednodeinfo at hL
        rw [hsel] at hL
        simp at hL
        exact ⟨sel, rfl, hL.symm⟩
  · intro L hL t conn addrs hmem ae hae
    cases hsel : selectAddedNodes vAddedNodes nodeArg with
    | error e =>
        unfold getaddednodeinfo at hL
        rw [hsel] at hL
        simp at hL
    | ok sel =>
        unfold getaddednodeinfo at hL
        rw [hsel] at hL
        simp only [Bool.true_eq_false, if_false, ite_false, Except.ok.injEq] at hL
        subst hL
        rw [List.mem_map] at hmem
        obtain ⟨tv, htv, heq⟩ := hmem
        injection heq with h1 h2 h3
        subst h3
        rw [List.mem_map] at hae
        obtain ⟨a, ha, hae2⟩ := hae
        subst hae2
        exact ⟨(candidate_entry_spec vNodes a).1, (candidate_entry_spec vNodes a).2⟩

/-- C5 witness: one added node resolving to two candidates, one of which is
the address of the single (inbound) live peer. -/
theorem getaddednodeinfo_connectivity_witness :
    (demoAe1.connected ≠ none ↔ ∃ p ∈ [demoNode], p.addr = demoAe1.address) ∧
    (∀ d, demoAe1.connected = some d →
      ∃ p ∈ [demoNode], p.addr = demoAe1.address ∧
        d = (if p.fInbound then ConnDir.inbound else ConnDir.outbound)) :=
  (getaddednodeinfo_connectivity ["h"] none
      (fun _ => some [demoSvc1, demoSvc2]) [demoNode]).2
    [GANEntry.full "h" true [demoAe1, demoAe2]] (by rfl)
    "h" true [demoAe1, demoAe2] (by decide) demoAe1 (by decide)

theorem findIdxFrom_some {c : Char} :
    ∀ (s : List Char) (p j : Nat), findIdxFrom s c p = some j →
      p ≤ j ∧ j < s.length ∧ s.get? j = some c ∧
        ∀ i, p ≤ i → i < j → s.get? i ≠ some c := by
  intro s
  induction s with
  | nil => intro p j h; simp [findIdxFrom] at h
  | cons a t ih =>
      intro p j h
      cases p with
      | zero =>
          simp only [findIdxFrom] at h
          by_cases hac : a = c
          · rw [if_pos hac] at h
            injection h with h
            subst h
            refine ⟨Nat.le_refl 0, Nat.succ_pos _, by simp [hac], ?_⟩
            intro i _ hi
            exact absurd hi (Nat.not_lt_zero i)
          · rw [if_neg hac] at h
            rw [Option.map_eq_some'] at h
            obtain ⟨k, hk, rfl⟩ := h
            obtain ⟨_, h2, h3, h4⟩ := ih 0 k hk
            refine ⟨Nat.zero_le _, by simp; omega, by simpa using h3, ?_⟩
            intro i _ hik
            cases i with
            | zero => simp [hac]
            | succ i2 =>
                have := h4 i2 (Nat.zero_le _) (by omega)
                simpa using this
      | succ q =>
          simp only [findIdxFrom] at h
          rw [Option.map_eq_some'] at h
          obtain ⟨k, hk, rfl⟩ := h
          obtain ⟨h1, h2, h3, h4⟩ := ih q k hk
          refine ⟨by omega, by simp; omega, by simpa using h3, ?_⟩
          intro i hi1 hik
          cases i with
          | zero => omega
          | succ i2 =>
              have := h4 i2 (by omega) (by omega)
              simpa using this

theorem findIdxFrom_none {c : Char} :
    ∀ (s : List Char) (p : Nat), findIdxFrom s c p = none →
      ∀ i, p ≤ i → s.get? i ≠ some c := by
  intro s
  induction s with
  | nil => intro p h i hi; simp
  | cons a t ih =>
      intro p h i hi
      cases p with
      | zero =>
          simp only [findIdxFrom] at h
          by_cases hac : a = c
          · rw [if_pos hac] at h
            simp at h
          · rw [if_neg hac] at h
            rw [Option.map_eq_none'] at h
            cases i with
            | zero => simp [hac]
            | succ i2 => simpa using ih 0 h i2 (Nat.zero_le _)
      | succ q =>
          simp only [findIdxFrom] at h
          rw [Option.map_eq_none'] at h
          cases i with
          | zero => omega
          | succ i2 => simpa using ih q h i2 (by omega)

theorem subVerLoopF_mem :
    ∀ (fuel : Nat) (s : List Char) (p : Nat), s.length + 1 - p ≤ fuel → 1 ≤ p →
      s.get? (p - 1) = some '/' →
      ∀ x, x ∈ subVerLoopF fuel s p ↔
        ∃ a b, p - 1 ≤ a ∧ a < b ∧ s.get? a = some '/' ∧ s.get? b = some '/' ∧
          (∀ i, a < i → i < b → s.get? i ≠ some '/') ∧
          x = (s.drop a).take (b + 1 - a) := by
  intro fuel
  induction fuel with
  | zero =>
      intro s p hfuel hp hslash x
      simp only [subVerLoopF]
      constructor
      · intro h
        exact absurd h (List.not_mem_nil x)
      · rintro ⟨a, b, hpa, hab, hsa, hsb, hbet, hx⟩
        exfalso
        have hble : ¬ s.length ≤ b := fun hge => by
          rw [List.get?_eq_none.mpr hge] at hsb
          exact Option.noConfusion hsb
        omega
  | succ fuel ih =>
      intro s p hfuel hp hslash x
      simp only [subVerLoopF]
      cases hf : findIdxFrom s '/' p with
      | none =>
          simp only [hf]
          constructor
          · intro h
            exact absurd h (List.not_mem_nil x)
          · rintro ⟨a, b, hpa, hab, hsa, hsb, hbet, hx⟩
            exact absurd hsb (findIdxFrom_none s p hf b (by omega))
      | some j =>
          obtain ⟨hpj, hjlen, hjslash, hjmin⟩ := findIdxFrom_some s p j hf
          simp only [hf]
          rw [List.mem_cons]
          have hih := ih s (j + 1) (by omega) (by omega) hjslash x
          rw [hih]
          constructor
          · rintro (rfl | ⟨a, b, hpa, hab, hsa, hsb, hbet, hx⟩)
            · refine ⟨p - 1, j, Nat.le_refl _, by omega, hslash, hjslash, ?_, rfl⟩
              intro i hi1 hi2
              exact hjmin i (by omega) hi2
            · exact ⟨a, b, by omega, hab, hsa, hsb, hbet, hx⟩
          · rintro ⟨a, b, hpa, hab, hsa, hsb, hbet, hx⟩
            by_cases hcase : a = p - 1
            · subst hcase
              have hjb : j ≤ b := by
                by_contra hlt
                push_neg at hlt
                exact (hjmin b (by omega) hlt) hsb
              have hbj : b ≤ j := by
                by_contra hlt
                push_neg at hlt
                exact (hbet j (by omega) hlt) hjslash
              have hbeq : b = j := Nat.le_antisymm hbj hjb
              subst hbeq
              left
              exact hx
            · have hap : p ≤ a := by omega
              have hja : j ≤ a := by
                by_contra hlt
                push_neg at hlt
                exact (hjmin a hap hlt) hsa
              right
              exact ⟨a, b, by omega, hab, hsa, hsb, hbet, hx⟩

/-- C10: sendalert's subversion-argument handling: an empty argument leaves
the set empty (the alert applies to all clients); a non-empty string that
does not both begin and end with '/' makes the call throw before an alert
is created; a valid string yields exactly the substrings spanning each pair
of consecutive '/' delimiters, enclosing slashes included. -/
theorem sendalert_subver_parsing (s : List Char) :
    (s = [] → parseSubVers s = Except.ok []) ∧
    (s ≠ [] → ¬(s.get? 0 = some '/' ∧ s.get? (s.length - 1) = some '/') →
      ∃ e, parseSubVers s = Except.error e) ∧
    (s.get? 0 = some '/' → s.get? (s.length - 1) = some '/' →
      ∃ L, parseSubVers s = Except.ok L ∧ ∀ x, x ∈ L ↔ isConsecSlashSeg s x) := by
  refine ⟨fun h => by subst h; rfl, fun hne hcond => ?_, fun h0 hlast => ?_⟩
  · have hlen : s.length ≠ 0 := fun h => hne (List.length_eq_zero.mp h)
    unfold parseSubVers
    rw [if_neg hlen, if_neg hcond]
    exact ⟨_, rfl⟩
  · have hlen : s.length ≠ 0 := by
      intro h
      rw [List.length_eq_zero.mp h] at h0
      simp at h0
    have hok : parseSubVers s = Except.ok (subVerLoop s 1) := by
      unfold parseSubVers
      rw [if_neg hlen, if_pos ⟨h0, hlast⟩]
    refine ⟨subVerLoop s 1, hok, fun x => ?_⟩
    have hmem := subVerLoopF_mem (s.length + 1 - 1) s 1 (Nat.le_refl _)
      (Nat.le_refl 1) h0 x
    rw [show subVerLoop s 1 = subVerLoopF (s.length + 1 - 1) s 1 from rfl, hmem]
    unfold isConsecSlashSeg
    constructor
    · rintro ⟨a, b, _, hab, hsa, hsb, hbet, hx⟩
      exact ⟨a, b, hab, hsa, hsb, hbet, hx⟩
    · rintro ⟨a, b, hab, hsa, hsb, hbet, hx⟩
      exact ⟨a, b, Nat.zero_le a, hab, hsa, hsb, hbet, hx⟩

/-- C10 witness: the example "/A/B/" parses into its two slash-delimited
elements, which satisfy the consecutive-pair characterization. -/
theorem sendalert_subver_parsing_witness :
    (∃ L, parseSubVers ['/', 'A', '/', 'B', '/'] = Except.ok L ∧
      ∀ x, x ∈ L ↔ isConsecSlashSeg ['/', 'A', '/', 'B', '/'] x) ∧
    parseSubVers ['/', 'A', '/', 'B', '/'] =
      Except.ok [['/', 'A', '/'], ['/', 'B', '/']] :=
  ⟨(sendalert_subver_parsing ['/', 'A', '/', 'B', '/']).2.2 rfl rfl, rfl⟩
